import Mathlib

/-!
Shallow embedding of the DNShield cache monitor
(`resources/tests/cache/dnshield_cache_monitor.py`).

Strings are modelled as `List Char` internally (Python string operations are
re-implemented faithfully: `str.strip(chars)`, `str.split(sep)`,
`sub in s` substring test, `int(s)` parsing).  Latencies are modelled as `ℚ`
(all comparisons performed by the program involve decimal constants that are
exact in binary floating point, so order comparisons agree with `ℚ`).
External effects (the `dig` subprocess, the `defaults` configuration store)
are passed in explicitly as values/oracles.
-/

/-- Python whitespace characters (the default `str.strip()` set). -/
def wsChars : List Char := [' ', '\t', '\n', '\r', '\x0b', '\x0c']

/-- Python `s.strip(chars)`: remove any of `toRemove` from both ends. -/
def stripChars (toRemove : List Char) (s : List Char) : List Char :=
  ((s.dropWhile (toRemove.contains ·)).reverse.dropWhile (toRemove.contains ·)).reverse

/-- Python `s.split(sep)` for a single-character separator `sep`
(splits at every occurrence, keeping empty pieces). -/
def pySplit (sep : Char) : List Char → List (List Char)
  | [] => [[]]
  | c :: rest =>
    let r := pySplit sep rest
    if c = sep then [] :: r
    else
      match r with
      | [] => [[c]]
      | h :: t => (c :: h) :: t

/-- Python substring test `needle in hay` (contiguous substring). -/
def containsSub (hay needle : List Char) : Bool :=
  (List.range (hay.length + 1)).any (fun i => needle.isPrefixOf (hay.drop i))

/-- Python `domain.split('.', 1)[-1]`: everything after the first `'.'`,
or the whole string when it has no `'.'`. -/
def afterFirstDot (s : List Char) : List Char :=
  match s.dropWhile (· ≠ '.') with
  | [] => s
  | _ :: rest => rest

/-- Digit-string to number (used by the model of Python `int`). -/
def digitsToNat (cs : List Char) : Option Nat :=
  if cs ≠ [] ∧ cs.all Char.isDigit then
    some (cs.foldl (fun a c => a * 10 + (c.toNat - 48)) 0)
  else none

/-- Python `int(s)`: strip whitespace, optional sign, decimal digits;
any other shape raises `ValueError`, modelled as `none`. -/
def pyInt (s : List Char) : Option Int :=
  match stripChars wsChars s with
  | '-' :: rest => (digitsToNat rest).map (fun n => -(n : Int))
  | '+' :: rest => (digitsToNat rest).map (fun n => (n : Int))
  | t => (digitsToNat t).map (fun n => (n : Int))

/-! ## Probe Classifier (`query_dns`, lines 12–28) -/

/-- One classified query result (spec `ProbeSample`); `answer`/`errorText`
empty encode Python `''`/`None`. -/
structure ProbeSample where
  elapsedMs : ℚ
  answer : String
  errorText : String
  deriving DecidableEq, Repr

/-- Spec classification enum. -/
inductive Classification where
  | Cached
  | Fresh
  | Error
  deriving DecidableEq, Repr

/-- The classification the code actually computes
(line 92 `"CACHED" if result['time_ms'] < 5 else "FRESH"`, likewise line 139):
it depends on the latency only. -/
def classifySample (s : ProbeSample) : Classification :=
  if s.elapsedMs < 5 then Classification.Cached else Classification.Fresh

/-- Outcome of the external `dig` subprocess invocation. -/
inductive ResolveOutcome where
  | success (elapsedMs : ℚ) (stdout : String) (stderr : String) (returncode : Int)
  | timedOut
  deriving DecidableEq

/-- Python `str.strip()` on a `String`. -/
def pyStripWs (s : String) : String :=
  String.mk (stripChars wsChars s.data)

/-- `query_dns` (lines 12–28): wraps the external resolve outcome into a
`ProbeSample`; on `subprocess.TimeoutExpired` it returns the sentinel
`{time_ms: 5000, result: None, error: 'Timeout'}`. -/
def query_dns (o : ResolveOutcome) : ProbeSample :=
  match o with
  | ResolveOutcome.success e out err rc =>
      { elapsedMs := e
        answer := pyStripWs out
        errorText := if rc ≠ 0 then pyStripWs err else "" }
  | ResolveOutcome.timedOut =>
      { elapsedMs := 5000, answer := "", errorText := "Timeout" }

/-! ## Statistics Aggregator verdict (lines 107–115) -/

inductive CacheVerdict where
  | Confirmed
  | NotDetected
  | Inconsistent
  deriving DecidableEq, Repr

/-- The verdict heuristic of `test_domain_cache` (lines 107–115): evaluated
only when `len(times) > 1`; `Confirmed` when every subsequent time is below
half the first, otherwise `NotDetected` when every time exceeds 10 ms,
otherwise `Inconsistent`. -/
def verdict : List ℚ → Option CacheVerdict
  | t0 :: t1 :: rest =>
      if (t1 :: rest).all (fun t => decide (t < t0 * (1/2))) then
        some CacheVerdict.Confirmed
      else if (t0 :: t1 :: rest).all (fun t => decide (10 < t)) then
        some CacheVerdict.NotDetected
      else
        some CacheVerdict.Inconsistent
  | _ => none

/-! ## TTL Monitor near-expiry test (line 144) -/

/-- Line 144: `elapsed > expected_ttl - 5 and elapsed < expected_ttl + 5`. -/
def isNearExpectedExpiry (elapsed expectedTtl : ℚ) : Bool :=
  decide (expectedTtl - 5 < elapsed) && decide (elapsed < expectedTtl + 5)

/-! ## Cache Rule Resolver (`get_cache_rule`, lines 30–52) -/

/-- The partial rule record (Python dict `rule_info` with keys
`action`/`ttl`). -/
structure RuleInfo where
  action : Option String
  ttl : Option Int
  deriving DecidableEq, Repr

/-- Line 41: `domain in line or f"*.{domain.split('.', 1)[-1]}" in line`. -/
def lineMatches (domain line : List Char) : Bool :=
  containsSub line domain || containsSub line ('*' :: '.' :: afterFirstDot domain)

/-- Lines 40–42: scan lines in order; at the first matching line return the
block window `range(i, min(i+5, len(lines)))`, i.e. the matching line and at
most the four lines after it. -/
def firstMatchWindow (domain : List Char) : List (List Char) → Option (List (List Char))
  | [] => none
  | line :: rest =>
      if lineMatches domain line then some ((line :: rest).take 5)
      else firstMatchWindow domain rest

/-- Lines 45–48, one window line: `.error ()` models a raised exception
(`IndexError` from `split('=')[1]` or `ValueError` from `int(...)`). -/
def procWindowLine (acc : RuleInfo) (line : List Char) : Except Unit RuleInfo :=
  if containsSub line ("action".data) then
    match (pySplit '=' line).get? 1 with
    | none => Except.error ()
    | some v =>
        Except.ok { acc with action := some (String.mk (stripChars [' ', '"', ';'] v)) }
  else if containsSub line ("ttl".data) then
    match (pySplit '=' line).get? 1 with
    | none => Except.error ()
    | some v =>
        match pyInt (stripChars [' ', ';'] v) with
        | none => Except.error ()
        | some n => Except.ok { acc with ttl := some n }
  else Except.ok acc

/-- Lines 43–48: fold the window, starting from the empty dict; the first
exception aborts the whole extraction. -/
def extractRule (window : List (List Char)) : Except Unit RuleInfo :=
  window.foldlM procWindowLine { action := none, ttl := none }

/-- Lines 39–49: `result.stdout.strip().split('\n')`, then match + extract.
`.ok none` = no line matched (fall through to `return None`). -/
def parseRule (text : String) (domain : String) : Except Unit (Option RuleInfo) :=
  match firstMatchWindow domain.data (pySplit '\n' (stripChars wsChars text.data)) with
  | none => Except.ok none
  | some w => (extractRule w).map some

instance {e a : Type} [DecidableEq e] [DecidableEq a] : DecidableEq (Except e a)
  | Except.error x, Except.error y =>
      if h : x = y then isTrue (congrArg Except.error h)
      else isFalse (fun hh => h (Except.error.inj hh))
  | Except.error _, Except.ok _ => isFalse (fun hh => Except.noConfusion hh)
  | Except.ok _, Except.error _ => isFalse (fun hh => Except.noConfusion hh)
  | Except.ok x, Except.ok y =>
      if h : x = y then isTrue (congrArg Except.ok h)
      else isFalse (fun hh => h (Except.ok.inj hh))

/-- `get_cache_rule` (lines 30–52). `readResult` is the external
`defaults read` outcome: `none` models a nonzero exit status (or a raised
read error); the bare `except: pass` turns every internal exception into
`return None`. -/
def get_cache_rule (readResult : Option String) (domain : String) : Option RuleInfo :=
  match readResult with
  | none => none
  | some text =>
      match parseRule text domain with
      | Except.error _ => none
      | Except.ok r => r

/-- Python dict truthiness of `rule_info` (nonempty dict). -/
def ruleTruthy (r : RuleInfo) : Bool :=
  r.action.isSome || r.ttl.isSome

/-- `test_domain_cache` lines 77–81: `if rule:` — `true` when the
"Default (300s TTL)" branch is taken. -/
def ruleDisplayIsDefault (rule : Option RuleInfo) : Bool :=
  match rule with
  | none => true
  | some r => !ruleTruthy r

/-- `main` lines 172–173: `ttl = rule.get('ttl', 300) if rule else 300`. -/
def effectiveTtl (rule : Option RuleInfo) : Int :=
  match rule with
  | none => 300
  | some r => if ruleTruthy r then r.ttl.getD 300 else 300

/-- Scenario D fixture: configuration text with a `*.example.com` block. -/
def configD : String :=
  "DomainCacheRules = (\n  rule1 = (\n    domain = \"*.example.com\";\n    action = \"block\";\n    ttl = 120;\n  );\n)"

/-- Fixture whose matched block has a non-integer ttl value. -/
def configBadTtl : String :=
  "example.com rules\naction = \"block\";\nttl = oops;"

/-- Fixture whose matched block window has no `action`/`ttl` line at all. -/
def configNoFields : String :=
  "cached domains\nexample.com entry\nnothing else here"

/-! ## Sampling Engine (`test_domain_cache` loop, lines 87–97) -/

/-- Observable events of the sampling loop: issuing probe `i`, or sleeping
the inter-probe delay. -/
inductive RunEvent where
  | probeCall (i : Nat)
  | sleepDelay
  deriving DecidableEq, Repr

/-- Lines 87–89: `for i in range(iterations): result = query_dns(domain);
times.append(result['time_ms'])`.  `probe i` is the external outcome of the
`i`-th query. -/
def runSamples (probe : Nat → ProbeSample) (iterations : Nat) : List ProbeSample :=
  (List.range iterations).foldl (fun acc i => acc ++ [probe i]) []

/-- Lines 87–97, the event trace of the same loop: probe `i`, then
(line 96) `if i < iterations - 1: time.sleep(delay)`. -/
def runEvents (iterations : Nat) : List RunEvent :=
  (List.range iterations).foldl
    (fun acc i =>
      acc ++ [RunEvent.probeCall i] ++
        (if i < iterations - 1 then [RunEvent.sleepDelay] else []))
    []

/-! ## TTL Monitor loop body (`monitor_cache_ttl`, lines 134–147) -/

/-- Spec `TTLObservation`, restricted to the fields the loop body computes. -/
structure TtlObservation where
  elapsedSinceStart : ℚ
  cached : Bool
  nearExpiry : Bool
  expiryLogged : Bool
  deriving DecidableEq, Repr

/-- One iteration of the monitor loop (lines 134–147): line 139 classifies by
`result['time_ms'] < 5`; line 144 prints the detected-expiry message only for
a fresh sample whose `elapsed` is inside the near-expiry window. -/
def monitorStep (expectedTtl elapsed : ℚ) (s : ProbeSample) : TtlObservation :=
  let cached := decide (s.elapsedMs < 5)
  let near := isNearExpectedExpiry elapsed expectedTtl
  { elapsedSinceStart := elapsed
    cached := cached
    nearExpiry := near
    expiryLogged := !cached && near }

/-! ## Comparison Orchestrator (`main` compare branch, lines 175–188) -/

/-- The external configuration store, restricted to the one key the compare
branch mutates; `none` = key absent. -/
structure ConfigState where
  userCanAdjustCache : Option Bool
  deriving DecidableEq, Repr

/-- `defaults write com.dnshield.app UserCanAdjustCache -bool <v>`. -/
def writeUserCanAdjustCache (s : ConfigState) (v : Bool) : ConfigState :=
  { s with userCanAdjustCache := some v }

/-- The compare branch (lines 175–188): phase 1 only reads; line 181 writes
`NO`; if the phase-2 test raises, the exception propagates (there is no
try/finally) and the final write is skipped; otherwise line 188 writes a
fixed `YES`.  Returns the final store state and whether the run completed
without an exception. -/
def compareRun (pre : ConfigState) (phase2Raises : Bool) : ConfigState × Bool :=
  let afterDisable := writeUserCanAdjustCache pre false
  if phase2Raises then (afterDisable, false)
  else (writeUserCanAdjustCache afterDisable true, true)

/-! ## Helper lemmas -/

/-- `containsSub` is the contiguous-substring relation (Python `in`). -/
theorem containsSub_iff (hay needle : List Char) :
    containsSub hay needle = true ↔ ∃ pre post, hay = pre ++ needle ++ post := by
  unfold containsSub
  rw [List.any_eq_true]
  constructor
  · rintro ⟨i, _, hpre⟩
    rw [List.isPrefixOf_iff_prefix] at hpre
    obtain ⟨t, ht⟩ := hpre
    refine ⟨hay.take i, t, ?_⟩
    rw [List.append_assoc, ht, List.take_append_drop]
  · rintro ⟨pre, post, rfl⟩
    refine ⟨pre.length, ?_, ?_⟩
    · rw [List.mem_range]
      simp [List.length_append]
      omega
    · rw [List.isPrefixOf_iff_prefix, List.append_assoc, List.drop_left]
      exact ⟨post, rfl⟩

theorem dropWhile_ne_dot (l s : List Char) (hl : '.' ∉ l) :
    (l ++ '.' :: s).dropWhile (· ≠ '.') = '.' :: s := by
  induction l with
  | nil => simp [List.dropWhile_cons]
  | cons c cs ih =>
    simp only [List.mem_cons, not_or] at hl
    have hc : c ≠ '.' := fun hh => hl.1 hh.symm
    have hrest := ih hl.2
    simp only [List.cons_append, List.dropWhile_cons] at hrest ⊢
    simp only [ne_eq, decide_not] at hrest
    simp [hc]
    exact hrest

/-- For a dotted domain, the wildcard suffix the code computes
(`domain.split('.', 1)[-1]`) is everything after the first label. -/
theorem afterFirstDot_append (l s : List Char) (hl : '.' ∉ l) :
    afterFirstDot (l ++ '.' :: s) = s := by
  unfold afterFirstDot
  rw [dropWhile_ne_dot l s hl]

theorem firstMatchWindow_of_first (domain line : List Char) (rest : List (List Char)) :
    ∀ pre, (∀ l ∈ pre, lineMatches domain l = false) → lineMatches domain line = true →
      firstMatchWindow domain (pre ++ line :: rest) = some ((line :: rest).take 5) := by
  intro pre
  induction pre with
  | nil =>
    intro _ hm
    simp [firstMatchWindow, hm]
  | cons x xs ih =>
    intro hpre hm
    have hx : lineMatches domain x = false := hpre x (List.mem_cons_self x xs)
    simp only [List.cons_append, firstMatchWindow, hx, Bool.false_eq_true, if_false]
    exact ih (fun l hl => hpre l (List.mem_cons_of_mem _ hl)) hm

theorem procWindowLine_skip (acc : RuleInfo) (line : List Char)
    (ha : containsSub line ("action".data) = false)
    (ht : containsSub line ("ttl".data) = false) :
    procWindowLine acc line = Except.ok acc := by
  unfold procWindowLine
  simp [ha, ht]

theorem extractFold_no_fields :
    ∀ (w : List (List Char)) (acc : RuleInfo),
      (∀ l ∈ w, containsSub l ("action".data) = false ∧
        containsSub l ("ttl".data) = false) →
      List.foldlM procWindowLine acc w = Except.ok acc := by
  intro w
  induction w with
  | nil => intro acc _; rfl
  | cons x xs ih =>
    intro acc h
    have hx := h x (List.mem_cons_self x xs)
    have hstep := procWindowLine_skip acc x hx.1 hx.2
    simp only [List.foldlM_cons, hstep]
    exact ih acc (fun l hl => h l (List.mem_cons_of_mem _ hl))

theorem runSamples_eq_map (probe : Nat → ProbeSample) :
    ∀ n, runSamples probe n = (List.range n).map probe := by
  intro n
  induction n with
  | zero => rfl
  | succ m ih =>
    unfold runSamples at ih ⊢
    rw [List.range_succ, List.foldl_append, ih, List.map_append]
    rfl

theorem runEvents_foldl (n : Nat) :
    ∀ (l : List Nat) (init : List RunEvent),
      l.foldl (fun acc i => acc ++ [RunEvent.probeCall i] ++
          (if i < n - 1 then [RunEvent.sleepDelay] else [])) init =
        init ++ l.flatMap (fun i => RunEvent.probeCall i ::
          (if i < n - 1 then [RunEvent.sleepDelay] else [])) := by
  intro l
  induction l with
  | nil => intro init; simp
  | cons x xs ih =>
    intro init
    simp only [List.foldl_cons, ih, List.flatMap_cons]
    simp [List.append_assoc]

theorem flatMap_congr_mem {α β : Type} (l : List α) (f g : α → List β)
    (h : ∀ x ∈ l, f x = g x) : l.flatMap f = l.flatMap g := by
  induction l with
  | nil => rfl
  | cons x xs ih =>
    rw [List.flatMap_cons, List.flatMap_cons, h x (List.mem_cons_self x xs),
      ih (fun y hy => h y (List.mem_cons_of_mem _ hy))]

theorem runEvents_closed (n : Nat) (h : 1 ≤ n) :
    runEvents n =
      ((List.range (n - 1)).flatMap fun i =>
          [RunEvent.probeCall i, RunEvent.sleepDelay]) ++
        [RunEvent.probeCall (n - 1)] := by
  obtain ⟨m, rfl⟩ : ∃ m, n = m + 1 := ⟨n - 1, by omega⟩
  unfold runEvents
  rw [runEvents_foldl (m + 1)]
  simp only [Nat.add_sub_cancel, List.nil_append, List.range_succ, List.flatMap_append]
  rw [flatMap_congr_mem (List.range m) _
      (fun i => [RunEvent.probeCall i, RunEvent.sleepDelay])
      (fun i hi => by simp [List.mem_range.mp hi])]
  simp

/-! ## Claims -/

/-- C1: the compare branch of `main` does not restore the pre-call value of
`UserCanAdjustCache`: on the success path it writes a fixed `YES` (so a
pre-call value of `false` is not restored), and when the phase-2 test raises,
the final write is skipped entirely (so a pre-call value of `true` is left at
the disabled `false`). -/
theorem claim_C1_flag_overwritten :
    (compareRun { userCanAdjustCache := some false } false).1 =
      { userCanAdjustCache := some true } ∧
    (compareRun { userCanAdjustCache := some false } false).1 ≠
      { userCanAdjustCache := some false } ∧
    (compareRun { userCanAdjustCache := some true } true).1 =
      { userCanAdjustCache := some false } ∧
    (compareRun { userCanAdjustCache := some true } true).1 ≠
      { userCanAdjustCache := some true } := by
  refine ⟨rfl, by decide, rfl, by decide⟩

/-- C2 counterexample: the timeout sample has non-empty `errorText` yet the
code classifies it `Fresh`, not `Error` (classification looks only at
latency). -/
theorem claim_C2_counterexample :
    ({ elapsedMs := 5000, answer := "", errorText := "Timeout" } :
        ProbeSample).errorText ≠ "" ∧
    classifySample { elapsedMs := 5000, answer := "", errorText := "Timeout" } =
      Classification.Fresh ∧
    Classification.Fresh ≠ Classification.Error := by
  refine ⟨by decide, by norm_num [classifySample], by decide⟩

/-- C2 (amended): the classification ignores `errorText` entirely — it is
`Cached` iff `elapsedMs < 5.0` and `Fresh` iff `elapsedMs >= 5.0`, even when
`errorText` is non-empty; no `Error` classification is ever produced. -/
theorem claim_C2_classification_latency_only (s : ProbeSample) :
    (classifySample s = Classification.Cached ↔ s.elapsedMs < 5) ∧
    (classifySample s = Classification.Fresh ↔ 5 ≤ s.elapsedMs) ∧
    classifySample s ≠ Classification.Error := by
  unfold classifySample
  by_cases h : s.elapsedMs < 5
  · rw [if_pos h]
    exact ⟨iff_of_true rfl h, iff_of_false (by decide) (not_le.mpr h), by decide⟩
  · rw [if_neg h]
    exact ⟨iff_of_false (by decide) h, iff_of_true rfl (not_lt.mp h), by decide⟩

/-- C2 witness: the amended classification law evaluated at a concrete
sample (3 ms, no error → Cached). -/
theorem claim_C2_classification_latency_only_witness :
    classifySample { elapsedMs := 3, answer := "1.2.3.4", errorText := "" } =
      Classification.Cached :=
  ((claim_C2_classification_latency_only
      { elapsedMs := 3, answer := "1.2.3.4", errorText := "" }).1).mpr (by norm_num)

/-- C3 counterexample: `[100, 20]` has every sample above 10 ms, yet the
verdict is `Confirmed` (the Confirmed branch is checked first), not
`NotDetected` — so the claimed "iff" fails. -/
theorem claim_C3_counterexample :
    verdict [100, 20] = some CacheVerdict.Confirmed ∧
    ((100 : ℚ) > 10 ∧ (20 : ℚ) > 10) ∧
    CacheVerdict.Confirmed ≠ CacheVerdict.NotDetected := by
  refine ⟨by norm_num [verdict], by norm_num, by decide⟩

/-- C3 (amended): for sequences of length > 1 the verdict is `NotDetected`
iff every sample (including the first) exceeds 10 ms AND the `Confirmed`
test fails (not every subsequent sample is below half the first). -/
theorem claim_C3_notdetected_iff (t0 t1 : ℚ) (rest : List ℚ) :
    verdict (t0 :: t1 :: rest) = some CacheVerdict.NotDetected ↔
      ((∀ t ∈ t0 :: t1 :: rest, 10 < t) ∧
        ¬(∀ t ∈ t1 :: rest, t < t0 * (1/2))) := by
  have hAiff : ((t1 :: rest).all (fun t => decide (t < t0 * (1/2))) = true) ↔
      (∀ t ∈ t1 :: rest, t < t0 * (1/2)) := by simp
  have hBiff : ((t0 :: t1 :: rest).all (fun t => decide (10 < t)) = true) ↔
      (∀ t ∈ t0 :: t1 :: rest, 10 < t) := by simp
  show (if (t1 :: rest).all (fun t => decide (t < t0 * (1/2))) then
      some CacheVerdict.Confirmed
    else if (t0 :: t1 :: rest).all (fun t => decide (10 < t)) then
      some CacheVerdict.NotDetected
    else some CacheVerdict.Inconsistent) = some CacheVerdict.NotDetected ↔ _
  by_cases hA : (t1 :: rest).all (fun t => decide (t < t0 * (1/2))) = true
  · rw [if_pos hA]
    constructor
    · intro hcontra
      exact absurd hcontra (by decide)
    · rintro ⟨_, hno⟩
      exact absurd (hAiff.mp hA) hno
  · rw [if_neg hA]
    by_cases hB : (t0 :: t1 :: rest).all (fun t => decide (10 < t)) = true
    · rw [if_pos hB]
      constructor
      · intro _
        exact ⟨hBiff.mp hB, fun hcontra => hA (hAiff.mpr hcontra)⟩
      · intro _
        rfl
    · rw [if_neg hB]
      constructor
      · intro hcontra
        exact absurd hcontra (by decide)
      · rintro ⟨hall, _⟩
        exact absurd (hBiff.mpr hall) hB

/-- C3 witness: the amended rule evaluated at `[12, 15]` (all above 10 ms,
Confirmed test fails) — verdict `NotDetected`. -/
theorem claim_C3_notdetected_iff_witness :
    verdict [12, 15] = some CacheVerdict.NotDetected := by
  refine (claim_C3_notdetected_iff 12 15 []).mpr ⟨?_, ?_⟩
  · intro t ht
    simp only [List.mem_cons, List.not_mem_nil, or_false] at ht
    rcases ht with rfl | rfl <;> norm_num
  · intro hcontra
    have := hcontra 15 (by simp)
    norm_num at this

/-- C4 counterexample: for a matched block whose ttl value is not a plain
integer (`ttl = oops;`), the collected `action` is NOT returned — the
`int(...)` exception aborts the whole lookup and the bare `except` turns it
into an absent result. -/
theorem claim_C4_counterexample :
    extractRule ["example.com rules".data, "action = \"block\";".data] =
      Except.ok { action := some "block", ttl := none } ∧
    extractRule
        ["example.com rules".data, "action = \"block\";".data, "ttl = oops;".data] =
      Except.error () ∧
    get_cache_rule (some configBadTtl) "example.com" = none ∧
    (none : Option RuleInfo) ≠ some { action := some "block", ttl := none } := by
  refine ⟨by decide, by decide, by decide, by decide⟩

/-- C4 (amended): `get_cache_rule` never propagates an exception — a read
failure yields absent and every internal parse exception is swallowed into
an absent result — but a window whose ttl value is not a plain unquoted
integer aborts the lookup, discarding the action field that was already
collected, rather than returning a partial rule. -/
theorem claim_C4_fails_soft :
    (∀ domain : String, get_cache_rule none domain = none) ∧
    (∀ text domain : String, parseRule text domain = Except.error () →
      get_cache_rule (some text) domain = none) ∧
    parseRule configBadTtl "example.com" = Except.error () ∧
    get_cache_rule (some configBadTtl) "example.com" = none := by
  refine ⟨fun _ => rfl, ?_, by decide, by decide⟩
  intro text domain h
  show (match parseRule text domain with
    | Except.error _ => none
    | Except.ok r => r) = none
  rw [h]

/-- C4 witness: the fail-soft law applied to the concrete malformed-ttl
configuration text. -/
theorem claim_C4_fails_soft_witness :
    get_cache_rule (some configBadTtl) "example.com" = none :=
  claim_C4_fails_soft.2.1 configBadTtl "example.com" (by decide)

/-- C5 counterexample: the timeout sentinel sample is classified `Fresh` by
the code (classification is latency-only), not `Error` as claimed. -/
theorem claim_C5_counterexample :
    classifySample (query_dns ResolveOutcome.timedOut) = Classification.Fresh ∧
    Classification.Fresh ≠ Classification.Error := by
  refine ⟨by norm_num [classifySample, query_dns], by decide⟩

/-- C5 (amended): whenever the external resolve primitive times out, the
probe returns exactly the sentinel sample
`{elapsedMs = 5000, answer = "", errorText = "Timeout"}`; since 5000 ≥ 5 the
sentinel is never classified `Cached` — the code classifies it `Fresh`
(there is no `Error` classification). -/
theorem claim_C5_timeout_sentinel :
    query_dns ResolveOutcome.timedOut =
      { elapsedMs := 5000, answer := "", errorText := "Timeout" } ∧
    classifySample (query_dns ResolveOutcome.timedOut) ≠ Classification.Cached ∧
    classifySample (query_dns ResolveOutcome.timedOut) = Classification.Fresh := by
  have h5 : ¬(5000 : ℚ) < 5 := by norm_num
  refine ⟨rfl, ?_, ?_⟩ <;> simp [classifySample, query_dns, h5]

/-- C6 counterexample: the latency sequence `[0.8, 0.3, 0.2, 0.4]` ms yields
`Inconsistent`, not `Confirmed`: the last sample fails the strict comparison
`0.4 < 0.5 × 0.8`. -/
theorem claim_C6_counterexample :
    verdict [4/5, 3/10, 2/10, 4/10] = some CacheVerdict.Inconsistent ∧
    ¬((4 : ℚ)/10 < (4/5) * (1/2)) ∧
    CacheVerdict.Inconsistent ≠ CacheVerdict.Confirmed := by
  refine ⟨by norm_num [verdict], by norm_num, by decide⟩

/-- C6 (amended): the verdict is `Confirmed` iff the sequence length exceeds
one and every sample after the first is strictly below half the first
sample; a sequence witnessing this is `[0.8, 0.3, 0.2, 0.39]` ms (the
claimed example `[0.8, 0.3, 0.2, 0.4]` fails the strict inequality). -/
theorem claim_C6_confirmed_iff :
    (∀ (t0 t1 : ℚ) (rest : List ℚ),
      verdict (t0 :: t1 :: rest) = some CacheVerdict.Confirmed ↔
        ∀ t ∈ t1 :: rest, t < t0 * (1/2)) ∧
    (∀ t : ℚ, verdict [t] = none) ∧
    verdict [] = none ∧
    verdict [4/5, 3/10, 2/10, 39/100] = some CacheVerdict.Confirmed := by
  refine ⟨?_, fun _ => rfl, rfl, by norm_num [verdict]⟩
  intro t0 t1 rest
  have hAiff : ((t1 :: rest).all (fun t => decide (t < t0 * (1/2))) = true) ↔
      (∀ t ∈ t1 :: rest, t < t0 * (1/2)) := by simp
  show (if (t1 :: rest).all (fun t => decide (t < t0 * (1/2))) then
      some CacheVerdict.Confirmed
    else if (t0 :: t1 :: rest).all (fun t => decide (10 < t)) then
      some CacheVerdict.NotDetected
    else some CacheVerdict.Inconsistent) = some CacheVerdict.Confirmed ↔ _
  by_cases hA : (t1 :: rest).all (fun t => decide (t < t0 * (1/2))) = true
  · rw [if_pos hA]
    exact iff_of_true rfl (hAiff.mp hA)
  · rw [if_neg hA]
    refine iff_of_false ?_ (fun hcontra => hA (hAiff.mpr hcontra))
    by_cases hB : (t0 :: t1 :: rest).all (fun t => decide (10 < t)) = true
    · rw [if_pos hB]
      decide
    · rw [if_neg hB]
      decide

/-- C7: the rule matcher matches a line iff it contains the exact domain
string or the wildcard `*.<suffix>` where `<suffix>` is everything after the
domain's first label; the first matching line wins, its block window is at
most 5 lines; and on the Scenario D configuration,
`get_cache_rule` for `sub.example.com` returns action `block`, ttl 120. -/
theorem claim_C7_rule_matching :
    (∀ label s : List Char, '.' ∉ label →
      afterFirstDot (label ++ '.' :: s) = s) ∧
    (∀ domain line : List Char,
      lineMatches domain line = true ↔
        ((∃ pre post, line = pre ++ domain ++ post) ∨
          (∃ pre post,
            line = pre ++ ('*' :: '.' :: afterFirstDot domain) ++ post))) ∧
    (∀ (domain line : List Char) (pre rest : List (List Char)),
      (∀ l ∈ pre, lineMatches domain l = false) →
      lineMatches domain line = true →
        firstMatchWindow domain (pre ++ line :: rest) =
          some ((line :: rest).take 5) ∧
        ((line :: rest).take 5).length ≤ 5) ∧
    get_cache_rule (some configD) "sub.example.com" =
      some { action := some "block", ttl := some 120 } := by
  refine ⟨afterFirstDot_append, ?_, ?_, by decide⟩
  · intro domain line
    unfold lineMatches
    rw [Bool.or_eq_true, containsSub_iff, containsSub_iff]
  · intro domain line pre rest hpre hm
    exact ⟨firstMatchWindow_of_first domain line rest pre hpre hm,
      List.length_take_le 5 _⟩

/-- C7 witness: the matching laws evaluated on concrete inputs — the
wildcard suffix of `sub.example.com`, and first-match-wins on a two-line
configuration. -/
theorem claim_C7_rule_matching_witness :
    afterFirstDot ("sub".data ++ '.' :: "example.com".data) = "example.com".data ∧
    firstMatchWindow ("example.com".data)
        ([" nope ".data] ++ "host example.com".data :: []) =
      some (("host example.com".data :: []).take 5) := by
  constructor
  · exact claim_C7_rule_matching.1 "sub".data "example.com".data (by decide)
  · exact (claim_C7_rule_matching.2.2.1 "example.com".data
      "host example.com".data [" nope ".data] [] (by decide) (by decide)).1

/-- C8: for every iterations count n ≥ 1, the sampling loop issues exactly
the probe calls 0, …, n−1 in order (each exactly once, a failed probe is
kept as its sample and never retried), collects exactly n samples, and the
event trace sleeps once between consecutive probes and never after the last
probe. -/
theorem claim_C8_sampling_loop (probe : Nat → ProbeSample) (n : Nat)
    (h : 1 ≤ n) :
    runSamples probe n = (List.range n).map probe ∧
    (runSamples probe n).length = n ∧
    runEvents n =
      ((List.range (n - 1)).flatMap fun i =>
          [RunEvent.probeCall i, RunEvent.sleepDelay]) ++
        [RunEvent.probeCall (n - 1)] := by
  refine ⟨runSamples_eq_map probe n, ?_, runEvents_closed n h⟩
  rw [runSamples_eq_map probe n]
  simp

/-- C8 witness: the sampling-loop law at n = 3 with a concrete probe
oracle. -/
theorem claim_C8_sampling_loop_witness :
    runEvents 3 =
      ((List.range 2).flatMap fun i =>
          [RunEvent.probeCall i, RunEvent.sleepDelay]) ++
        [RunEvent.probeCall 2] :=
  (claim_C8_sampling_loop
    (fun _ => { elapsedMs := 0, answer := "", errorText := "" }) 3
    (by decide)).2.2

/-- C9: the TTL monitor's near-expiry flag is true exactly when the elapsed
time since start lies within ±5 seconds of the expected TTL (strictly inside
the open window, as the code's `>`/`<` comparisons demand); with
`expectedTtl = 30` it is true at 28 s and false at 10 s. -/
theorem claim_C9_near_expiry_window :
    (∀ elapsed expectedTtl : ℚ,
      isNearExpectedExpiry elapsed expectedTtl = true ↔
        |elapsed - expectedTtl| < 5) ∧
    (∀ (expectedTtl elapsed : ℚ) (s : ProbeSample),
      (monitorStep expectedTtl elapsed s).nearExpiry =
        isNearExpectedExpiry elapsed expectedTtl) ∧
    isNearExpectedExpiry 28 30 = true ∧
    isNearExpectedExpiry 10 30 = false := by
  refine ⟨?_, fun _ _ _ => rfl, by norm_num [isNearExpectedExpiry],
    by norm_num [isNearExpectedExpiry]⟩
  intro e t
  rw [abs_sub_lt_iff]
  unfold isNearExpectedExpiry
  rw [Bool.and_eq_true, decide_eq_true_iff, decide_eq_true_iff]
  constructor
  · rintro ⟨h1, h2⟩
    constructor <;> linarith
  · rintro ⟨h1, h2⟩
    constructor <;> linarith

/-- C10: when a configuration line matches the domain but no line of its
at-most-5-line window contains the substring `action` or `ttl`, the resolver
returns the empty rule record (both fields absent), which is a present value
distinct from absent; both callers treat it exactly like absent — the test
report takes the "Default (300s TTL)" branch and the ttl command falls back
to 300 seconds. -/
theorem claim_C10_empty_rule (text domain : String) (w : List (List Char))
    (hw : firstMatchWindow domain.data
        (pySplit '\n' (stripChars wsChars text.data)) = some w)
    (hno : ∀ l ∈ w, containsSub l ("action".data) = false ∧
        containsSub l ("ttl".data) = false) :
    get_cache_rule (some text) domain = some { action := none, ttl := none } ∧
    (some { action := none, ttl := none } : Option RuleInfo) ≠ none ∧
    ruleDisplayIsDefault (some { action := none, ttl := none }) = true ∧
    ruleDisplayIsDefault none = true ∧
    effectiveTtl (some { action := none, ttl := none }) = 300 ∧
    effectiveTtl none = 300 := by
  refine ⟨?_, by decide, rfl, rfl, rfl, rfl⟩
  have hext : extractRule w = Except.ok { action := none, ttl := none } :=
    extractFold_no_fields w { action := none, ttl := none } hno
  show (match parseRule text domain with
    | Except.error _ => none
    | Except.ok r => r) = some { action := none, ttl := none }
  unfold parseRule
  rw [hw]
  show (match Except.map some (extractRule w) with
    | Except.error _ => none
    | Except.ok r => r) = some { action := none, ttl := none }
  rw [hext]
  rfl

/-- C10 witness: the empty-rule law applied to a concrete configuration in
which the matched window holds no `action`/`ttl` line. -/
theorem claim_C10_empty_rule_witness :
    get_cache_rule (some configNoFields) "example.com" =
      some { action := none, ttl := none } :=
  (claim_C10_empty_rule configNoFields "example.com"
    ["example.com entry".data, "nothing else here".data]
    (by decide) (by decide)).1
